import Mathlib

/-!
Verification of the keyring / workload-identity signing subsystem
(`nomad/encrypter.go`) against its natural-language specification.

The Go code is shallowly embedded: byte slices become `List Nat`, Go maps
become association lists, the mutable `Encrypter` becomes explicit state
passing, and fallible code returns an explicit result type with a `crash`
constructor for Go panics (out-of-bounds slicing, writes to a nil map,
`ed25519.NewKeyFromSeed` on a bad seed length, nil-pointer dereference).

External cryptographic libraries (`crypto/cipher` AES-256-GCM,
`go-kms-wrapping`, `go-jose`) are idealised symbolically: an AEAD seal
appends a 16-entry tag that binds the additional authenticated data
injectively, KMS wrappers prepend a header bound to the wrapping key, and
JWT signatures bind the signing key's public bytes to the payload. The
control flow around these primitives is translated from the source
line by line.
-/

namespace NomadKeyring

/-! ## Bytes and the injective chunk encoding -/

/-- A Go byte slice. Entries are unbounded naturals; real byte values are
below 256 and UTF-8 code points are below 0x110000, both far below the
digit base used by `chunkEnc`. -/
abbrev Bytes := List Nat

/-- Digit base for `chunkEnc`: 2 ^ 21, above every Unicode code point. -/
def encBase : Nat := 2097152

/-- Fold a list into a single natural, digit by digit in base `encBase`.
Injective on lists whose entries are below `encBase - 1` (`chunkEnc_injOn`);
used as a plain mixing hash elsewhere. -/
def chunkEnc : Bytes → Nat
  | [] => 0
  | b :: bs => (b % (encBase - 1) + 1) + encBase * chunkEnc bs

/-- Lists whose entries fit a single `chunkEnc` digit. -/
def SmallList (l : Bytes) : Prop := ∀ x ∈ l, x < encBase - 1

theorem chunkEnc_injOn : ∀ (l₁ l₂ : Bytes), SmallList l₁ → SmallList l₂ →
    chunkEnc l₁ = chunkEnc l₂ → l₁ = l₂ := by
  intro l₁
  induction l₁ with
  | nil =>
    intro l₂ _ h₂ heq
    cases l₂ with
    | nil => rfl
    | cons b bs =>
      exfalso
      simp only [chunkEnc] at heq
      omega
  | cons a as ih =>
    intro l₂ h₁ h₂ heq
    cases l₂ with
    | nil =>
      exfalso
      simp only [chunkEnc] at heq
      omega
    | cons b bs =>
      simp only [chunkEnc] at heq
      have ha : a < encBase - 1 := h₁ a (List.mem_cons_self a as)
      have hb : b < encBase - 1 := h₂ b (List.mem_cons_self b bs)
      have ha' : a % (encBase - 1) = a := Nat.mod_eq_of_lt ha
      have hb' : b % (encBase - 1) = b := Nat.mod_eq_of_lt hb
      rw [ha', hb'] at heq
      have hB : encBase = 2097152 := rfl
      rw [hB] at heq
      have hab : a = b ∧ chunkEnc as = chunkEnc bs := by
        constructor
        · omega
        · omega
      have htail : as = bs := by
        refine ih bs ?_ ?_ hab.2
        · intro x hx; exact h₁ x (List.mem_cons_of_mem a hx)
        · intro x hx; exact h₂ x (List.mem_cons_of_mem b hx)
      rw [hab.1, htail]

/-- UTF-32 view of a Go string: the sequence of its code points.
Stands in for the `[]byte(s)` conversions of the source (the exact byte
serialisation is irrelevant; only injectivity matters). -/
def strBytes (s : String) : Bytes := s.data.map Char.toNat

theorem char_toNat_lt (c : Char) : c.toNat < encBase - 1 := by
  have h := c.valid
  rcases h with h | ⟨_, h2⟩
  · have : c.toNat < 55296 := h
    simp only [encBase]
    omega
  · have : c.toNat < 1114112 := h2
    simp only [encBase]
    omega

theorem strBytes_small (s : String) : SmallList (strBytes s) := by
  intro x hx
  simp only [strBytes, List.mem_map] at hx
  obtain ⟨c, _, rfl⟩ := hx
  exact char_toNat_lt c

theorem char_toNat_injective : Function.Injective Char.toNat := by
  intro a b h
  exact Char.eq_of_val_eq (UInt32.eq_of_toBitVec_eq (BitVec.toNat_injective h))

theorem strBytes_inj {s t : String} (h : strBytes s = strBytes t) : s = t := by
  apply String.ext
  exact List.map_injective_iff.mpr char_toNat_injective h

/-! ## Idealised AES-256-GCM (`crypto/cipher`)

The cipher produced by `cipher.NewGCM` has a 12-byte nonce and a 16-byte
tag. The model keeps the plaintext in clear (secrecy is not at issue) and
appends a 16-entry tag whose first entry binds the additional
authenticated data injectively and whose second entry mixes key, nonce and
body, matching the spec's framing `nonce || AEAD-output`. -/

def gcmNonceSize : Nat := 12

def gcmTagSize : Nat := 16

def gcmTag (key nonce aad body : Bytes) : Bytes :=
  chunkEnc aad :: chunkEnc (key ++ nonce ++ body) :: List.replicate 14 0

theorem gcmTag_length (key nonce aad body : Bytes) :
    (gcmTag key nonce aad body).length = gcmTagSize := by
  simp [gcmTag, gcmTagSize]

/-- Seal of the idealised AEAD: body followed by the tag. -/
def gcmSeal (key nonce pt aad : Bytes) : Bytes := pt ++ gcmTag key nonce aad pt

/-- Open of the idealised AEAD: check length, split off the tag, recompute
and compare; `none` is the library's "message authentication failed". -/
def gcmOpen (key nonce ct aad : Bytes) : Option Bytes :=
  if ct.length < gcmTagSize then none
  else
    let body := ct.take (ct.length - gcmTagSize)
    if gcmTag key nonce aad body = ct.drop (ct.length - gcmTagSize) then some body
    else none

theorem gcmSeal_length (key nonce pt aad : Bytes) :
    (gcmSeal key nonce pt aad).length = pt.length + gcmTagSize := by
  simp [gcmSeal, gcmTag_length]

theorem gcmOpen_gcmSeal (key nonce pt aad : Bytes) :
    gcmOpen key nonce (gcmSeal key nonce pt aad) aad = some pt := by
  have hlen : (gcmSeal key nonce pt aad).length = pt.length + gcmTagSize :=
    gcmSeal_length key nonce pt aad
  have hsub : (gcmSeal key nonce pt aad).length - gcmTagSize = pt.length := by omega
  have htake : (gcmSeal key nonce pt aad).take pt.length = pt := by
    simp [gcmSeal]
  have hdrop : (gcmSeal key nonce pt aad).drop pt.length = gcmTag key nonce aad pt := by
    simp [gcmSeal]
  simp only [gcmOpen, hlen, Nat.add_sub_cancel]
  rw [htake, hdrop]
  rw [if_neg (by simp [gcmTagSize]), if_pos rfl]

theorem gcmOpen_aad_ne (key key' nonce nonce' pt : Bytes) {aad aad' : Bytes}
    (h : chunkEnc aad ≠ chunkEnc aad') :
    gcmOpen key' nonce' (gcmSeal key nonce pt aad) aad' = none := by
  have hlen : (gcmSeal key nonce pt aad).length = pt.length + gcmTagSize :=
    gcmSeal_length key nonce pt aad
  have hsub : (gcmSeal key nonce pt aad).length - gcmTagSize = pt.length := by omega
  have htake : (gcmSeal key nonce pt aad).take pt.length = pt := by
    simp [gcmSeal]
  have hdrop : (gcmSeal key nonce pt aad).drop pt.length = gcmTag key nonce aad pt := by
    simp [gcmSeal]
  simp only [gcmOpen, hlen, Nat.add_sub_cancel]
  rw [htake, hdrop]
  have hne : gcmTag key' nonce' aad' pt ≠ gcmTag key nonce aad pt := by
    intro hcontra
    have : chunkEnc aad' = chunkEnc aad := by
      have := congrArg (fun l => l.headI) hcontra
      simpa [gcmTag] using this
    exact h this.symm
  rw [if_neg (by simp [gcmTagSize]), if_neg hne]

/-! ## Data model

The structures mirror `nomad/structs` (whose source file is not part of
the extract; fields follow spec section 3 and the uses in `encrypter.go`).
Go pointers that may be nil become `Option`. -/

/-- Value of `structs.EncryptionAlgorithmAES256GCM`. -/
def EncryptionAlgorithmAES256GCM : String := "aes256-gcm"

/-- Modelled from the spec: a wrapping-provider descriptor on
`RootKeyMeta.KEKProviders` (name + type; the opaque configuration lives in
`KEKProviderConfig`). -/
structure KEKProvider where
  Provider : String
  Name : String
deriving DecidableEq, Repr

/-- Modelled from the spec: replicated key metadata (spec section 3). -/
structure RootKeyMeta where
  KeyID : String
  Algorithm : String
  CreateTime : Nat
  State : String
  KEKProviders : List KEKProvider
  ModifyIndex : Nat
deriving DecidableEq, Repr

/-- Key material. `Meta` is a Go pointer (`*RootKeyMeta`) and may be nil. -/
structure RootKey where
  Meta : Option RootKeyMeta
  Key : Bytes
  RSAKey : Bytes
deriving DecidableEq, Repr

/-- Dereference `rk.Meta`. The Go code only dereferences after the nil
check in `addCipher` (or after `Meta.Validate` in the load path), so the
default is never reached on modelled paths. -/
def metaOf (rk : RootKey) : RootKeyMeta :=
  rk.Meta.getD { KeyID := "", Algorithm := "", CreateTime := 0, State := "",
                 KEKProviders := [], ModifyIndex := 0 }

/-- Symbolic `x509.ParsePKCS1PrivateKey`: a PKCS#1 DER blob starts with the
ASN.1 SEQUENCE tag 0x30; the parsed key is a symbolic handle that
remembers the bytes. -/
def parsePKCS1PrivateKey (b : Bytes) : Option Nat :=
  if b.head? = some 48 then some (chunkEnc b) else none

/-- Symbolic `x509.MarshalPKCS1PublicKey` of the public part of a parsed
private key handle. -/
def marshalPKCS1PublicKey (priv : Nat) : Bytes := [2, priv]

/-- Symbolic `ed25519.NewKeyFromSeed`: the private key is determined by the
32-byte seed (the function panics on other lengths; `addCipher` models
that). -/
def ed25519NewKeyFromSeed (seed : Bytes) : Bytes := seed

/-- Symbolic public half of an Ed25519 private key. -/
def ed25519Public (priv : Bytes) : Bytes := 1 :: priv

/-- In-memory keyset: the root key with derived cipher and signing keys
(`keyset` in the source). `cipherKey` stands for the AES-256-GCM cipher
built from the DEK. -/
structure Keyset where
  rootKey : RootKey
  cipherKey : Bytes
  eddsaPrivateKey : Bytes
  rsaPrivateKey : Option Nat
  rsaPKCS1PublicKey : Bytes
deriving DecidableEq, Repr

/-- Error kinds surfaced by the subsystem (spec section 7); constructors
carry the identifying data of the Go error strings. -/
inductive EncErr where
  | notInitialized
  | noSuchKey (keyID : String)
  | cipherCreate
  | invalidAlgorithm (alg : String)
  | missingMetadata
  | badRSAKey
  | authFailed
  | invalidMeta
  | writeFailed (path : String)
  | readFailed (path : String)
  | wrapperCreate
  | unwrapFailed
  | badToken
  | badSignature
  | keyIDMismatch (keyID : String) (path : String)
  | fileErr (path : String) (inner : EncErr)
deriving DecidableEq, Repr

/-- Go panics reachable in the embedded code. -/
inductive PanicKind where
  | sliceOutOfRange
  | nilMapWrite
  | nilWrapper
  | badSeedLength
deriving DecidableEq, Repr

/-- Result of a Go call: a value, a returned error, or a panic. -/
inductive Res (α : Type) where
  | ok (val : α)
  | err (e : EncErr)
  | crash (k : PanicKind)
deriving DecidableEq, Repr

/-! ## Go maps as association lists -/

def mapGet {α : Type} (m : List (String × α)) (k : String) : Option α :=
  (m.find? (fun p => p.1 = k)).map (·.2)

def mapPut {α : Type} (m : List (String × α)) (k : String) (v : α) :
    List (String × α) :=
  (k, v) :: m.filter (fun p => ¬ p.1 = k)

def mapDel {α : Type} (m : List (String × α)) (k : String) :
    List (String × α) :=
  m.filter (fun p => ¬ p.1 = k)

theorem mapGet_mapPut {α : Type} (m : List (String × α)) (k : String) (v : α) :
    mapGet (mapPut m k v) k = some v := by
  simp [mapGet, mapPut, List.find?]

theorem mapGet_mapPut_ne {α : Type} (m : List (String × α)) {k k' : String}
    (v : α) (h : k ≠ k') : mapGet (mapPut m k v) k' = mapGet m k' := by
  simp only [mapGet, mapPut]
  rw [List.find?_cons_of_neg _ (by simp [h])]
  congr 1
  induction m with
  | nil => rfl
  | cons p rest ih =>
    by_cases hp : p.1 = k
    · have hne : ¬ p.1 = k' := by rw [hp]; exact h
      rw [List.filter_cons_of_neg (by simp [hp])]
      rw [List.find?_cons_of_neg _ (by simp [hne])]
      exact ih
    · rw [List.filter_cons_of_pos (by simp [hp])]
      by_cases hp' : p.1 = k'
      · rw [List.find?_cons_of_pos _ (by simp [hp']),
            List.find?_cons_of_pos _ (by simp [hp'])]
      · rw [List.find?_cons_of_neg _ (by simp [hp']),
            List.find?_cons_of_neg _ (by simp [hp'])]
        exact ih

/-! ## Provider configuration and the encrypter state -/

/-- Modelled from the spec: `structs.KEKProviderConfig`, a provider's
opaque configuration blob keyed by (type, name). -/
structure KEKProviderConfig where
  Provider : String
  Name : String
  Config : List (String × String)
deriving DecidableEq, Repr

/-- The keyring state of `Encrypter`. `providerConfigs` is a Go map whose
zero value is nil: `none` models the nil map (reads succeed and find
nothing; writes panic). The server pointer is replaced by explicit
`ServerState`/oracle arguments where needed. -/
structure Encrypter where
  providerConfigs : Option (List (String × KEKProviderConfig))
  keystorePath : String
  issuer : String
  keyring : List (String × Keyset)
deriving DecidableEq, Repr

/-- The slice of the server's replicated state store the encrypter reads:
`store.GetActiveRootKeyMeta` (state-store read errors are not modelled). -/
structure ServerState where
  activeRootKeyMeta : Option RootKeyMeta
deriving DecidableEq, Repr

/-! ## Keyring cache operations -/

/-- Embeds `Encrypter.addCipher`: validate metadata, build the AEAD cipher
for the algorithm, derive the Ed25519 key, parse the RSA key if present,
and install the keyset. `aes.NewCipher` accepts 16/24/32-byte keys;
`ed25519.NewKeyFromSeed` panics unless the seed has exactly 32 bytes. -/
def addCipher (e : Encrypter) (rootKey : Option RootKey) : Encrypter × Res Unit :=
  match rootKey with
  | none => (e, .err .missingMetadata)
  | some rk =>
    match rk.Meta with
    | none => (e, .err .missingMetadata)
    | some meta =>
      if meta.Algorithm = EncryptionAlgorithmAES256GCM then
        if rk.Key.length = 16 ∨ rk.Key.length = 24 ∨ rk.Key.length = 32 then
          if rk.Key.length = 32 then
            let ks : Keyset :=
              { rootKey := rk, cipherKey := rk.Key,
                eddsaPrivateKey := ed25519NewKeyFromSeed rk.Key,
                rsaPrivateKey := none, rsaPKCS1PublicKey := [] }
            if rk.RSAKey.length > 0 then
              match parsePKCS1PrivateKey rk.RSAKey with
              | none => (e, .err .badRSAKey)
              | some priv =>
                let ks2 : Keyset :=
                  { ks with rsaPrivateKey := some priv,
                            rsaPKCS1PublicKey := marshalPKCS1PublicKey priv }
                ({ e with keyring := mapPut e.keyring meta.KeyID ks2 }, .ok ())
            else
              ({ e with keyring := mapPut e.keyring meta.KeyID ks }, .ok ())
          else (e, .crash .badSeedLength)
        else (e, .err .cipherCreate)
      else (e, .err (.invalidAlgorithm meta.Algorithm))

/-- Embeds `Encrypter.keysetByIDLocked`. -/
def keysetByIDLocked (e : Encrypter) (keyID : String) : Except EncErr Keyset :=
  match mapGet e.keyring keyID with
  | none => .error (.noSuchKey keyID)
  | some ks => .ok ks

/-- Embeds `Encrypter.activeKeySet`: resolve the active metadata record
from the state store, then the keyset by its ID. -/
def activeKeySet (st : ServerState) (e : Encrypter) : Except EncErr Keyset :=
  match st.activeRootKeyMeta with
  | none => .error .notInitialized
  | some keyMeta => keysetByIDLocked e keyMeta.KeyID

/-- Embeds `Encrypter.GetKey`. -/
def GetKey (e : Encrypter) (keyID : String) : Except EncErr (Bytes × Bytes) :=
  match keysetByIDLocked e keyID with
  | .error er => .error er
  | .ok ks => .ok (ks.rootKey.Key, ks.rootKey.RSAKey)

/-- Embeds `Encrypter.RemoveKey`. -/
def RemoveKey (e : Encrypter) (keyID : String) : Encrypter × Res Unit :=
  ({ e with keyring := mapDel e.keyring keyID }, .ok ())

/-- Embeds `crypto.Bytes`: n bytes drawn from a random oracle. -/
def cryptoBytes (rand : Nat → Nat) (n : Nat) : Bytes :=
  (List.range n).map (fun i => rand i % 256)

theorem cryptoBytes_length (rand : Nat → Nat) (n : Nat) :
    (cryptoBytes rand n).length = n := by
  simp [cryptoBytes]

/-- Embeds `Encrypter.Encrypt`: seal the cleartext under the active
keyset with a fresh nonce, the key ID as additional authenticated data,
and the nonce as the destination buffer, returning nonce plus seal output
and the key ID. -/
def Encrypt (st : ServerState) (e : Encrypter) (rand : Nat → Nat)
    (cleartext : Bytes) : Res (Bytes × String) :=
  match activeKeySet st e with
  | .error er => .err er
  | .ok ks =>
    let nonce := cryptoBytes rand gcmNonceSize
    let keyID := (metaOf ks.rootKey).KeyID
    let additional := strBytes keyID
    .ok (nonce ++ gcmSeal ks.cipherKey nonce cleartext additional, keyID)

/-- Embeds `Encrypter.Decrypt`. On a buffer shorter than the nonce the
slice expressions of the source are out of range, a panic (the ciphertext
slice has no spare capacity beyond its length). -/
def Decrypt (e : Encrypter) (ciphertext : Bytes) (keyID : String) : Res Bytes :=
  match keysetByIDLocked e keyID with
  | .error er => .err er
  | .ok ks =>
    if ciphertext.length < gcmNonceSize then .crash .sliceOutOfRange
    else
      let nonce := ciphertext.take gcmNonceSize
      let additional := strBytes keyID
      match gcmOpen ks.cipherKey nonce (ciphertext.drop gcmNonceSize) additional with
      | some pt => .ok pt
      | none => .err .authFailed

/-! ## Workload-identity signing (`go-jose` idealised)

Tokens are kept structurally (a parsed compact JWT: header fields,
payload, signature); serialisation by the external library is modelled as
the identity, with `none` standing for a string that is not a token. -/

/-- Modelled from the spec: `structs.IdentityClaims` (the claims of a
workload identity; spec sections 4.4 and 8 name the issuer and subject
claims, the remaining fields identify the workload). -/
structure IdentityClaims where
  Namespace : String
  JobID : String
  AllocationID : String
  TaskName : String
  Subject : String
  Issuer : String
deriving DecidableEq, Repr

/-- Hash of the claims as signed payload. -/
def claimsHash (c : IdentityClaims) : Nat :=
  chunkEnc (strBytes c.Namespace ++ strBytes c.JobID ++ strBytes c.AllocationID
    ++ strBytes c.TaskName ++ strBytes c.Subject ++ strBytes c.Issuer)

/-- A parsed JWS compact token: kid and alg headers, claims, signature. -/
structure JWTToken where
  kid : Option String
  alg : String
  payload : IdentityClaims
  sig : Nat
deriving DecidableEq, Repr

/-- Symbolic signature: binds the signer's public key bytes to the
payload. Verification under the matching public key recomputes it. -/
def signWith (publicKeyBytes : Bytes) (c : IdentityClaims) : Nat :=
  Nat.pair (chunkEnc publicKeyBytes) (claimsHash c)

/-- The `jose.NewSigner`/`CompactSerialize` step of `SignClaims`: RS256
when the keyset has an RSA key, EdDSA otherwise, with the key ID in the
kid header. -/
def mkSignedToken (ks : Keyset) (claims : IdentityClaims) : JWTToken × String :=
  let keyID := (metaOf ks.rootKey).KeyID
  match ks.rsaPrivateKey with
  | some priv =>
    ({ kid := some keyID, alg := "RS256", payload := claims,
       sig := signWith (marshalPKCS1PublicKey priv) claims }, keyID)
  | none =>
    ({ kid := some keyID, alg := "EdDSA", payload := claims,
       sig := signWith (ed25519Public ks.eddsaPrivateKey) claims }, keyID)

/-- One tick of `SignClaims`' retry loop is 50 ms; the context deadline is
5 s, so the Done channel fires after 100 sleeps. -/
def signTimeoutTicks : Nat := 100

/-- Embeds the `for { select { ... } }` retry loop of `SignClaims`. Each
iteration either sees the expired context (fuel 0: return the current
value of err) or sleeps and re-queries the active keyset, reassigning both
keyset and err. The `break` of the source leaves only the `select`
statement, not the loop, so a successful query does not exit: the loop
runs until the deadline and returns whatever err then holds. -/
def signRetryLoop (retry : Nat → Except EncErr Keyset) :
    Nat → Nat → Option EncErr → Option EncErr
  | 0, _, errv => errv
  | fuel + 1, i, _ =>
    match retry i with
    | .ok _ => signRetryLoop retry fuel (i + 1) none
    | .error er => signRetryLoop retry fuel (i + 1) (some er)

/-- Embeds `Encrypter.SignClaims`. `retry i` is the result of the i-th
in-loop `activeKeySet` query (the world changes as replication runs).
Returns (token, key ID, error); `none` for the token models the empty
string. On the retry path the only exit is the context deadline, which
returns empty token and key ID together with the then-current err value
(`none` when the last query succeeded). -/
def SignClaims (st : ServerState) (retry : Nat → Except EncErr Keyset)
    (e : Encrypter) (claims : IdentityClaims) :
    Option JWTToken × String × Option EncErr :=
  match activeKeySet st e with
  | .ok ks =>
    let claims2 := if e.issuer ≠ "" then { claims with Issuer := e.issuer } else claims
    let (tok, keyID) := mkSignedToken ks claims2
    (some tok, keyID, none)
  | .error er =>
    (none, "", signRetryLoop retry signTimeoutTicks 0 (some er))

/-- Public key record (`structs.KeyringPublicKey`). -/
structure KeyringPublicKey where
  KeyID : String
  PublicKey : Bytes
  Algorithm : String
  Use : String
  CreateTime : Nat
deriving DecidableEq, Repr

/-- Embeds `Encrypter.GetPublicKey`. -/
def GetPublicKey (e : Encrypter) (keyID : String) :
    Except EncErr KeyringPublicKey :=
  match keysetByIDLocked e keyID with
  | .error er => .error er
  | .ok ks =>
    if ks.rsaPrivateKey.isSome then
      .ok { KeyID := keyID, PublicKey := ks.rsaPKCS1PublicKey,
            Algorithm := "RS256", Use := "sig",
            CreateTime := (metaOf ks.rootKey).CreateTime }
    else
      .ok { KeyID := keyID, PublicKey := ed25519Public ks.eddsaPrivateKey,
            Algorithm := "EdDSA", Use := "sig",
            CreateTime := (metaOf ks.rootKey).CreateTime }

/-- Embeds `joseutil.KeyID`: the kid header, or an error when missing. -/
def joseutilKeyID (tok : JWTToken) : Except EncErr String :=
  match tok.kid with
  | none => .error .badToken
  | some k => .ok k

/-- Embeds `Encrypter.VerifyClaim`: parse, resolve the kid header, fetch
the public key, check the signature, validate the claims. The final
`claims.Validate(jwt.Expected{})` always passes in go-jose v3 (a zero
Expected carries no time and no expected issuer or audience), so it adds
no failure case to the model. -/
def VerifyClaim (e : Encrypter) (tokenString : Option JWTToken) :
    Except EncErr IdentityClaims :=
  match tokenString with
  | none => .error .badToken
  | some tok =>
    match joseutilKeyID tok with
    | .error er => .error er
    | .ok keyID =>
      match GetPublicKey e keyID with
      | .error er => .error er
      | .ok pubKey =>
        if tok.sig = signWith pubKey.PublicKey tok.payload then .ok tok.payload
        else .error .badSignature

/-! ## KMS wrappers and the on-disk keystore

`go-kms-wrapping` wrappers are idealised: a wrap prepends a header bound
to the wrapping key (the KEK for the built-in AEAD wrapper, the provider
identity for an external KMS); an unwrap checks the header and strips it.
Files are kept as parsed `KeyEncryptionKeyWrapper` records (JSON
marshalling of the external library round-trips), keyed by file name in an
association list standing for the flat keystore directory. -/

def nomadKeystoreExtension : String := ".nks.json"

/-- A configured KMS wrapper. -/
inductive KMSWrapper where
  | aeadWrapper (keyID : String) (kek : Bytes)
  | externalWrapper (provider : String) (name : String)
deriving DecidableEq, Repr

/-- Embeds `Encrypter.newKMSWrapper`: the switch matches the four external
provider types; every other provider string (including "aead" and "")
takes the default branch, which builds the built-in AEAD wrapper from the
supplied KEK. `SetAesGcmKeyBytes` fails unless the KEK is a valid AES key
(16, 24 or 32 bytes). External `SetConfig` consults `providerConfigs`
(reads of a nil map succeed and find nothing); its failure modes are not
modelled. -/
def newKMSWrapper (e : Encrypter) (provider name keyID : String) (kek : Bytes) :
    Except EncErr KMSWrapper :=
  if provider = "awskms" ∨ provider = "azurekeyvault" ∨ provider = "gcpckms"
      ∨ provider = "transit" then
    .ok (.externalWrapper provider name)
  else
    if kek.length = 16 ∨ kek.length = 24 ∨ kek.length = 32 then
      .ok (.aeadWrapper keyID kek)
    else .error .wrapperCreate

/-- Idealised `wrapper.Encrypt`: header bound to the wrapping key, then
the plaintext. -/
def wrapperEncrypt (w : KMSWrapper) (pt : Bytes) : Bytes :=
  match w with
  | .aeadWrapper _ kek => Nat.pair 0 (chunkEnc kek) :: pt
  | .externalWrapper provider name =>
    Nat.pair 1 (Nat.pair (chunkEnc (strBytes provider)) (chunkEnc (strBytes name))) :: pt

/-- Idealised `wrapper.Decrypt`: check the header, strip it. -/
def wrapperDecrypt (w : KMSWrapper) (blob : Bytes) : Except EncErr Bytes :=
  match blob with
  | [] => .error .unwrapFailed
  | h :: pt =>
    match w with
    | .aeadWrapper _ kek =>
      if h = Nat.pair 0 (chunkEnc kek) then .ok pt else .error .unwrapFailed
    | .externalWrapper provider name =>
      if h = Nat.pair 1 (Nat.pair (chunkEnc (strBytes provider))
          (chunkEnc (strBytes name))) then .ok pt
      else .error .unwrapFailed

theorem wrapperDecrypt_wrapperEncrypt (w : KMSWrapper) (pt : Bytes) :
    wrapperDecrypt w (wrapperEncrypt w pt) = .ok pt := by
  cases w <;> simp [wrapperEncrypt, wrapperDecrypt]

/-- On-disk record (`structs.KeyEncryptionKeyWrapper`). -/
structure KeyEncryptionKeyWrapper where
  Meta : Option RootKeyMeta
  EncryptedDataEncryptionKey : Bytes
  EncryptedRSAKey : Bytes
  KeyEncryptionKey : Bytes
  Provider : String
  ProviderName : String
deriving DecidableEq, Repr

/-- The keystore directory: file name to parsed record. -/
abbrev FileSys := List (String × KeyEncryptionKeyWrapper)

/-- Embeds `Encrypter.encryptDEK`. A fresh 32-byte KEK is drawn for the
built-in AEAD provider (and the empty provider string); external
providers get no local KEK. The error returned by `newKMSWrapper` is
discarded by the source (`wrapper, err := ...` immediately overwritten),
so a failed wrapper construction dereferences a nil wrapper: a panic. -/
def encryptDEK (e : Encrypter) (rand : Nat → Nat) (rootKey : RootKey)
    (provider : KEKProvider) : Res KeyEncryptionKeyWrapper :=
  let kek := if provider.Provider = "aead" ∨ provider.Provider = "" then
    cryptoBytes rand 32 else []
  match newKMSWrapper e provider.Provider provider.Name (metaOf rootKey).KeyID kek with
  | .error _ => .crash .nilWrapper
  | .ok w =>
    let rootBlob := wrapperEncrypt w rootKey.Key
    let base : KeyEncryptionKeyWrapper :=
      { Meta := rootKey.Meta, EncryptedDataEncryptionKey := rootBlob,
        EncryptedRSAKey := [], KeyEncryptionKey := kek,
        Provider := provider.Provider, ProviderName := provider.Name }
    if rootKey.RSAKey.length > 0 then
      .ok { base with EncryptedRSAKey := wrapperEncrypt w rootKey.RSAKey }
    else .ok base

/-- File-name extension for a provider (`saveKeyToStore`): bare for
"aead", `.<provider>[.<name>]` prefixed otherwise. -/
def providerExtension (provider : KEKProvider) : String :=
  if provider.Provider ≠ "aead" then
    "." ++ provider.Provider
      ++ (if provider.Name ≠ "" then "." ++ provider.Name else "")
      ++ nomadKeystoreExtension
  else nomadKeystoreExtension

/-- The per-provider loop of `saveKeyToStore`. `diskFail` is the
`os.WriteFile` failure oracle; an error in any provider aborts the save,
keeping the files already written. -/
def saveKeyLoop (e : Encrypter) (rand : Nat → Nat) (diskFail : String → Bool)
    (rootKey : RootKey) : List KEKProvider → FileSys → FileSys × Res Unit
  | [], fsys => (fsys, .ok ())
  | provider :: rest, fsys =>
    match encryptDEK e rand rootKey provider with
    | .crash kind => (fsys, .crash kind)
    | .err er => (fsys, .err er)
    | .ok kekWrapper =>
      let path := (metaOf rootKey).KeyID ++ providerExtension provider
      if diskFail path then (fsys, .err (.writeFailed path))
      else saveKeyLoop e rand diskFail rootKey rest (mapPut fsys path kekWrapper)

/-- Embeds `Encrypter.saveKeyToStore`: one file per descriptor on
`Meta.KEKProviders`. File names are kept relative to the keystore
directory (the directory path prefix is common to every entry). -/
def saveKeyToStore (e : Encrypter) (rand : Nat → Nat) (diskFail : String → Bool)
    (fsys : FileSys) (rootKey : RootKey) : FileSys × Res Unit :=
  saveKeyLoop e rand diskFail rootKey (metaOf rootKey).KEKProviders fsys

/-- Modelled from the spec: `helper.IsUUID` (the filename prefix must be a
well-formed UUID): 36 characters, hyphens at positions 8, 13, 18 and 23,
hexadecimal digits elsewhere. -/
def isUUID (s : String) : Bool :=
  s.data.length = 36 &&
    (List.range 36).all (fun i =>
      if i = 8 ∨ i = 13 ∨ i = 18 ∨ i = 23 then s.data.getD i ' ' = '-'
      else (s.data.getD i ' ').isDigit
        || ('a' ≤ s.data.getD i ' ' && s.data.getD i ' ' ≤ 'f')
        || ('A' ≤ s.data.getD i ' ' && s.data.getD i ' ' ≤ 'F'))

/-- Go `strings.HasSuffix` over the code-point view. -/
def hasSuffix (s suffix : String) : Bool :=
  decide (suffix.data.length ≤ s.data.length) &&
    decide (s.data.drop (s.data.length - suffix.data.length) = suffix.data)

/-- Go `strings.TrimSuffix` over the code-point view. -/
def trimSuffix (s suffix : String) : String :=
  if hasSuffix s suffix then
    String.mk (s.data.take (s.data.length - suffix.data.length))
  else s

/-- Modelled from the spec: `structs.RootKeyMeta.Validate` (key ID a
well-formed UUID, an algorithm present, a recognised state; a nil
metadata pointer is rejected). -/
def metaValidate (meta : Option RootKeyMeta) : Except EncErr Unit :=
  match meta with
  | none => .error .invalidMeta
  | some m =>
    if isUUID m.KeyID then
      if m.Algorithm ≠ "" then
        if m.State = "active" ∨ m.State = "inactive" ∨ m.State = "deprecated" then
          .ok ()
        else .error .invalidMeta
      else .error .invalidMeta
    else .error .invalidMeta

/-- Embeds `Encrypter.loadKeyFromStore`: read and decode the record,
validate the metadata, rebuild the wrapper from the embedded provider
identity and KEK, unwrap the DEK and (when present) the RSA key. -/
def loadKeyFromStore (e : Encrypter) (fsys : FileSys) (path : String) :
    Except EncErr RootKey :=
  match mapGet fsys path with
  | none => .error (.readFailed path)
  | some kekWrapper =>
    match metaValidate kekWrapper.Meta with
    | .error er => .error er
    | .ok _ =>
      match newKMSWrapper e kekWrapper.Provider kekWrapper.ProviderName
          (kekWrapper.Meta.map RootKeyMeta.KeyID |>.getD "")
          kekWrapper.KeyEncryptionKey with
      | .error _ => .error .wrapperCreate
      | .ok w =>
        match wrapperDecrypt w kekWrapper.EncryptedDataEncryptionKey with
        | .error _ => .error .unwrapFailed
        | .ok key =>
          if kekWrapper.EncryptedRSAKey.length > 0 then
            match wrapperDecrypt w kekWrapper.EncryptedRSAKey with
            | .error _ => .error .unwrapFailed
            | .ok rsaKey =>
              .ok { Meta := kekWrapper.Meta, Key := key, RSAKey := rsaKey }
          else .ok { Meta := kekWrapper.Meta, Key := key, RSAKey := [] }

/-- A directory entry seen by `filepath.Walk` over the keystore: a
subdirectory or a file (file contents live in the `FileSys`). -/
inductive FSEntry where
  | dirEntry (name : String)
  | fileEntry (name : String)
deriving DecidableEq, Repr

/-- Embeds the walk body of `Encrypter.loadKeystore`: subdirectories are
skipped (`filepath.SkipDir`), names without the keystore extension are
skipped, names whose prefix is not a well-formed UUID are skipped
(`return nil`); a loadable file whose embedded key ID disagrees with the
file name fails the walk; an error aborts the walk, keeping the keysets
already installed. -/
def loadKeystoreLoop (fsys : FileSys) :
    Encrypter → List FSEntry → Encrypter × Res Unit
  | e, [] => (e, .ok ())
  | e, .dirEntry _ :: rest => loadKeystoreLoop fsys e rest
  | e, .fileEntry name :: rest =>
    if ¬ hasSuffix name nomadKeystoreExtension then loadKeystoreLoop fsys e rest
    else
      let id := trimSuffix name nomadKeystoreExtension
      if ¬ isUUID id then loadKeystoreLoop fsys e rest
      else
        match loadKeyFromStore e fsys name with
        | .error er => (e, .err (.fileErr name er))
        | .ok key =>
          if (metaOf key).KeyID ≠ id then
            (e, .err (.keyIDMismatch (metaOf key).KeyID name))
          else
            match addCipher e (some key) with
            | (e2, .ok _) => loadKeystoreLoop fsys e2 rest
            | (e2, .err er) => (e2, .err (.fileErr name er))
            | (e2, .crash kind) => (e2, .crash kind)

/-- Embeds `Encrypter.loadKeystore` (`MkdirAll` on the keystore directory
is not modelled; `entries` is the walk order of the directory). -/
def loadKeystore (e : Encrypter) (fsys : FileSys) (entries : List FSEntry) :
    Encrypter × Res Unit :=
  loadKeystoreLoop fsys e entries

/-- Embeds `Encrypter.AddKey`: install the cipher into the keyring, then
save to the on-disk keystore; a save failure surfaces but the keyring
install stays. -/
def AddKey (e : Encrypter) (rand : Nat → Nat) (diskFail : String → Bool)
    (fsys : FileSys) (rootKey : Option RootKey) :
    (Encrypter × FileSys) × Res Unit :=
  match addCipher e rootKey with
  | (e2, .ok _) =>
    match rootKey with
    | some rk =>
      match saveKeyToStore e2 rand diskFail fsys rk with
      | (fs2, .ok _) => ((e2, fs2), .ok ())
      | (fs2, .err er) => ((e2, fs2), .err er)
      | (fs2, .crash kind) => ((e2, fs2), .crash kind)
    | none => ((e2, fsys), .ok ())
  | (e2, .err er) => ((e2, fsys), .err er)
  | (e2, .crash kind) => ((e2, fsys), .crash kind)

/-- Server configuration read by `NewEncrypter`. -/
structure ServerConfig where
  OIDCIssuer : String
  KEKProviderConfigs : List KEKProviderConfig
deriving DecidableEq, Repr

/-- The provider-config store loop of `NewEncrypter`. The struct literal
leaves `providerConfigs` at its zero value, a nil map, so the first store
into it panics. -/
def newEncrypterLoop (m : Option (List (String × KEKProviderConfig))) :
    List KEKProviderConfig → Res (Option (List (String × KEKProviderConfig)))
  | [] => .ok m
  | p :: rest =>
    match m with
    | none => .crash .nilMapWrite
    | some mm => newEncrypterLoop (some (mapPut mm (p.Provider ++ p.Name) p)) rest

/-- Embeds `NewEncrypter`: build the state, store each provider config,
load the keystore. -/
def NewEncrypter (cfg : ServerConfig) (keystorePath : String) (fsys : FileSys)
    (entries : List FSEntry) : Res Encrypter :=
  let e0 : Encrypter :=
    { providerConfigs := none, keystorePath := keystorePath,
      issuer := cfg.OIDCIssuer, keyring := [] }
  match newEncrypterLoop none cfg.KEKProviderConfigs with
  | .crash kind => .crash kind
  | .err er => .err er
  | .ok pc =>
    match loadKeystore { e0 with providerConfigs := pc } fsys entries with
    | (e2, .ok _) => .ok e2
    | (_, .err er) => .err er
    | (_, .crash kind) => .crash kind

/-! ## Helper lemmas for the claim theorems -/

theorem take_append_of_length {α : Type} {l₁ l₂ : List α} {n : Nat}
    (h : l₁.length = n) : (l₁ ++ l₂).take n = l₁ := by
  subst h
  simp

theorem drop_append_of_length {α : Type} {l₁ l₂ : List α} {n : Nat}
    (h : l₁.length = n) : (l₁ ++ l₂).drop n = l₂ := by
  subst h
  simp

theorem chunkEnc_strBytes_ne {s t : String} (h : s ≠ t) :
    chunkEnc (strBytes s) ≠ chunkEnc (strBytes t) := by
  intro hc
  exact h (strBytes_inj (chunkEnc_injOn _ _ (strBytes_small s) (strBytes_small t) hc))

/-! ## Claim theorems -/

/-- C1: for every cleartext, when an active AES-256-GCM keyset with ID k
exists in the keyring, Encrypt returns the key ID k and a ciphertext of
the form nonce plus AEAD output, 12 + len(cleartext) + 16 entries long,
and Decrypt of that ciphertext under k returns the cleartext. -/
theorem encrypt_decrypt_roundtrip (st : ServerState) (e : Encrypter)
    (rand : Nat → Nat) (c : Bytes) (k : String) (am m : RootKeyMeta) (ks : Keyset)
    (hact : st.activeRootKeyMeta = some am) (hak : am.KeyID = k)
    (hlook : mapGet e.keyring k = some ks)
    (hmeta : ks.rootKey.Meta = some m) (hmid : m.KeyID = k)
    (halg : m.Algorithm = EncryptionAlgorithmAES256GCM) :
    ∃ ct, Encrypt st e rand c = .ok (ct, k)
      ∧ ct.length = gcmNonceSize + c.length + gcmTagSize
      ∧ Decrypt e ct k = .ok c := by
  have hkeyID : (metaOf ks.rootKey).KeyID = k := by
    simp [metaOf, hmeta, hmid]
  have hactive : activeKeySet st e = .ok ks := by
    simp [activeKeySet, hact, keysetByIDLocked, hak, hlook]
  have hnl : (cryptoBytes rand gcmNonceSize).length = gcmNonceSize :=
    cryptoBytes_length rand gcmNonceSize
  refine ⟨cryptoBytes rand gcmNonceSize
    ++ gcmSeal ks.cipherKey (cryptoBytes rand gcmNonceSize) c (strBytes k), ?_, ?_, ?_⟩
  · simp [Encrypt, hactive, hkeyID]
  · simp only [List.length_append, hnl, gcmSeal_length]
    omega
  · have hlen : (cryptoBytes rand gcmNonceSize
        ++ gcmSeal ks.cipherKey (cryptoBytes rand gcmNonceSize) c (strBytes k)).length
        = gcmNonceSize + (c.length + gcmTagSize) := by
      simp only [List.length_append, hnl, gcmSeal_length]
    simp only [Decrypt, keysetByIDLocked, hlook, hlen]
    rw [if_neg (by omega)]
    rw [take_append_of_length hnl, drop_append_of_length hnl]
    simp [gcmOpen_gcmSeal]

/-- Concrete key ID used by witnesses (a well-formed UUID). -/
def uuid1 : String := "11111111-1111-1111-1111-111111111111"

/-- Second concrete key ID used by witnesses. -/
def uuid2 : String := "22222222-2222-2222-2222-222222222222"

/-- Concrete metadata for the witness keyset under `uuid1`. -/
def metaW1 : RootKeyMeta :=
  { KeyID := uuid1, Algorithm := EncryptionAlgorithmAES256GCM, CreateTime := 1,
    State := "active", KEKProviders := [{ Provider := "aead", Name := "" }],
    ModifyIndex := 1 }

/-- Concrete root key for the witness keyset under `uuid1`. -/
def rkW1 : RootKey := { Meta := some metaW1, Key := List.replicate 32 7, RSAKey := [] }

/-- Concrete keyset installed under `uuid1` (EdDSA only). -/
def ksW1 : Keyset :=
  { rootKey := rkW1, cipherKey := List.replicate 32 7,
    eddsaPrivateKey := List.replicate 32 7, rsaPrivateKey := none,
    rsaPKCS1PublicKey := [] }

/-- Concrete metadata for the witness keyset under `uuid2`. -/
def metaW2 : RootKeyMeta :=
  { KeyID := uuid2, Algorithm := EncryptionAlgorithmAES256GCM, CreateTime := 2,
    State := "inactive", KEKProviders := [{ Provider := "aead", Name := "" }],
    ModifyIndex := 2 }

/-- Concrete root key for the witness keyset under `uuid2`. -/
def rkW2 : RootKey := { Meta := some metaW2, Key := List.replicate 32 9, RSAKey := [] }

/-- Concrete keyset installed under `uuid2`. -/
def ksW2 : Keyset :=
  { rootKey := rkW2, cipherKey := List.replicate 32 9,
    eddsaPrivateKey := List.replicate 32 9, rsaPrivateKey := none,
    rsaPKCS1PublicKey := [] }

/-- Concrete two-key encrypter state used by witnesses. -/
def eW1 : Encrypter :=
  { providerConfigs := none, keystorePath := "", issuer := "",
    keyring := [(uuid1, ksW1), (uuid2, ksW2)] }

/-- Concrete server state whose active key is `uuid1`. -/
def stW1 : ServerState := { activeRootKeyMeta := some metaW1 }

/-- The cleartext "hello" as bytes. -/
def helloBytes : Bytes := [104, 101, 108, 108, 111]

/-- Closed instance of `encrypt_decrypt_roundtrip` on a concrete keyring
and the 5-byte cleartext "hello", giving a 33-entry ciphertext. -/
theorem encrypt_decrypt_roundtrip_witness :
    ∃ ct, Encrypt stW1 eW1 (fun i => i) helloBytes = .ok (ct, uuid1)
      ∧ ct.length = gcmNonceSize + helloBytes.length + gcmTagSize
      ∧ Decrypt eW1 ct uuid1 = .ok helloBytes :=
  encrypt_decrypt_roundtrip stW1 eW1 (fun i => i) helloBytes uuid1 metaW1 metaW1
    ksW1 rfl rfl (by decide) rfl rfl rfl

/-- C3: a ciphertext produced under key ID k fails to decrypt under any
other key ID present in the keyring: the key ID is the AEAD's additional
authenticated data, so opening under a different ID fails authentication
and surfaces as the ciphertext-invalid error. -/
theorem decrypt_wrong_key_id (st : ServerState) (e : Encrypter)
    (rand : Nat → Nat) (c : Bytes) (k k' : String) (am m : RootKeyMeta)
    (ks ks' : Keyset)
    (hact : st.activeRootKeyMeta = some am) (hak : am.KeyID = k)
    (hlook : mapGet e.keyring k = some ks)
    (hmeta : ks.rootKey.Meta = some m) (hmid : m.KeyID = k)
    (hlook' : mapGet e.keyring k' = some ks') (hne : k' ≠ k) :
    ∃ ct, Encrypt st e rand c = .ok (ct, k)
      ∧ Decrypt e ct k' = .err .authFailed := by
  have hkeyID : (metaOf ks.rootKey).KeyID = k := by
    simp [metaOf, hmeta, hmid]
  have hactive : activeKeySet st e = .ok ks := by
    simp [activeKeySet, hact, keysetByIDLocked, hak, hlook]
  have hnl : (cryptoBytes rand gcmNonceSize).length = gcmNonceSize :=
    cryptoBytes_length rand gcmNonceSize
  refine ⟨cryptoBytes rand gcmNonceSize
    ++ gcmSeal ks.cipherKey (cryptoBytes rand gcmNonceSize) c (strBytes k), ?_, ?_⟩
  · simp [Encrypt, hactive, hkeyID]
  · have hlen : (cryptoBytes rand gcmNonceSize
        ++ gcmSeal ks.cipherKey (cryptoBytes rand gcmNonceSize) c (strBytes k)).length
        = gcmNonceSize + (c.length + gcmTagSize) := by
      simp only [List.length_append, hnl, gcmSeal_length]
    simp only [Decrypt, keysetByIDLocked, hlook', hlen]
    rw [if_neg (by omega)]
    rw [take_append_of_length hnl, drop_append_of_length hnl]
    rw [gcmOpen_aad_ne _ _ _ _ _ (chunkEnc_strBytes_ne (fun hkk => hne hkk.symm))]

/-- Closed instance of `decrypt_wrong_key_id`: a ciphertext sealed under
`uuid1` fails authentication when decrypted under `uuid2`, which is also
present in the keyring. -/
theorem decrypt_wrong_key_id_witness :
    ∃ ct, Encrypt stW1 eW1 (fun i => i) helloBytes = .ok (ct, uuid1)
      ∧ Decrypt eW1 ct uuid2 = .err .authFailed :=
  decrypt_wrong_key_id stW1 eW1 (fun i => i) helloBytes uuid1 uuid2 metaW1 metaW1
    ksW1 ksW2 rfl rfl (by decide) rfl rfl (by decide) (by decide)

/-- C2: when the active keyset is available, VerifyClaims of the token
produced by SignClaims succeeds and returns the input claims (with the
issuer filled in from configuration when one is configured), and the key
ID returned by SignClaims is the kid header by which VerifyClaims
resolves the public key. The `hpub` hypothesis is the keyring invariant
maintained by `addCipher`: the stored public DER bytes belong to the
stored RSA private key. -/
theorem sign_verify_roundtrip (st : ServerState) (retry : Nat → Except EncErr Keyset)
    (e : Encrypter) (claims : IdentityClaims) (k : String) (ks : Keyset)
    (hact : activeKeySet st e = .ok ks)
    (hk : (metaOf ks.rootKey).KeyID = k)
    (hlook : mapGet e.keyring k = some ks)
    (hpub : ∀ p, ks.rsaPrivateKey = some p →
      ks.rsaPKCS1PublicKey = marshalPKCS1PublicKey p) :
    ∃ tok, SignClaims st retry e claims = (some tok, k, none)
      ∧ tok.kid = some k
      ∧ VerifyClaim e (some tok)
          = .ok (if e.issuer ≠ "" then { claims with Issuer := e.issuer } else claims) := by
  set claims2 := if e.issuer ≠ "" then { claims with Issuer := e.issuer } else claims with hc2
  cases hrsa : ks.rsaPrivateKey with
  | some priv =>
    refine ⟨⟨some k, "RS256", claims2, signWith (marshalPKCS1PublicKey priv) claims2⟩,
      ?_, rfl, ?_⟩
    · simp [SignClaims, hact, mkSignedToken, hrsa, hk, hc2]
    · have hps : ks.rsaPKCS1PublicKey = marshalPKCS1PublicKey priv := hpub priv hrsa
      simp [VerifyClaim, joseutilKeyID, GetPublicKey, keysetByIDLocked, hlook,
        hrsa, hps]
  | none =>
    refine ⟨⟨some k, "EdDSA", claims2, signWith (ed25519Public ks.eddsaPrivateKey) claims2⟩,
      ?_, rfl, ?_⟩
    · simp [SignClaims, hact, mkSignedToken, hrsa, hk, hc2]
    · simp [VerifyClaim, joseutilKeyID, GetPublicKey, keysetByIDLocked, hlook, hrsa]

/-- Concrete claims for the signing witnesses. -/
def claimsW : IdentityClaims :=
  { Namespace := "default", JobID := "job", AllocationID := "alloc",
    TaskName := "task", Subject := "s1", Issuer := "" }

/-- Closed instance of `sign_verify_roundtrip` on the concrete keyring
(no issuer configured, EdDSA keyset). -/
theorem sign_verify_roundtrip_witness :
    ∃ tok, SignClaims stW1 (fun _ => .error .notInitialized) eW1 claimsW
        = (some tok, uuid1, none)
      ∧ tok.kid = some uuid1
      ∧ VerifyClaim eW1 (some tok)
          = .ok (if eW1.issuer ≠ "" then { claimsW with Issuer := eW1.issuer }
                 else claimsW) :=
  sign_verify_roundtrip stW1 (fun _ => .error .notInitialized) eW1 claimsW uuid1
    ksW1 rfl rfl rfl (fun p hp => by simp [ksW1] at hp)

/-- C4 counterexample: on a 3-byte buffer with a key present in the
keyring, Decrypt panics (out-of-range slice), it does not return the
ciphertext-invalid error the claim states. -/
theorem decrypt_short_buffer_counterexample :
    Decrypt eW1 [0, 1, 2] uuid1 = .crash .sliceOutOfRange
      ∧ Decrypt eW1 [0, 1, 2] uuid1 ≠ .err .authFailed := by
  constructor
  · rfl
  · decide

/-- C4 amended: for every buffer shorter than the 12-byte nonce and every
key ID present in the keyring, Decrypt panics with an out-of-range slice
(the source slices `ciphertext[:nonceSize]` and `ciphertext[nonceSize:]`
without a length check); no error result is produced. -/
theorem decrypt_short_buffer_panics (e : Encrypter) (ct : Bytes) (k : String)
    (ks : Keyset) (hlook : mapGet e.keyring k = some ks)
    (hshort : ct.length < gcmNonceSize) :
    Decrypt e ct k = .crash .sliceOutOfRange := by
  simp [Decrypt, keysetByIDLocked, hlook, hshort]

/-- Closed instance of `decrypt_short_buffer_panics` on the concrete
keyring and a 3-byte buffer. -/
theorem decrypt_short_buffer_panics_witness :
    Decrypt eW1 [0, 1, 2] uuid1 = .crash .sliceOutOfRange :=
  decrypt_short_buffer_panics eW1 [0, 1, 2] uuid1 ksW1 rfl (by decide)

/-- Server state with no active root key metadata committed yet. -/
def stNoActive : ServerState := { activeRootKeyMeta := none }

/-- C5: evaluation of SignClaims at the failing input. The active keyset
is unavailable on the first query and available on every retry, yet
SignClaims returns the empty token and empty key ID with a nil error
after exhausting the 5-second budget: the `break` in the retry loop only
leaves the `select`, so the loop never returns the signed token, and at
the deadline the err of the last (successful) query is nil. -/
theorem signclaims_retry_returns_empty :
    SignClaims stNoActive (fun _ => .ok ksW1) eW1 claimsW = (none, "", none)
      ∧ SignClaims stNoActive (fun _ => .error .notInitialized) eW1 claimsW
          = (none, "", some .notInitialized) := by
  constructor
  · rfl
  · rfl

/-- C10 counterexample: with one KEK provider config present,
NewEncrypter panics storing into the never-initialised (nil)
`providerConfigs` map instead of completing construction. -/
theorem newEncrypter_nil_map_counterexample :
    NewEncrypter ⟨"", [⟨"awskms", "", []⟩]⟩ "keystore" [] [] = .crash .nilMapWrite := by
  rfl

/-- C10 amended: NewEncrypter panics with a nil-map store whenever the
configuration's KEK provider list is non-empty; only an empty list
avoids the store loop. -/
theorem newEncrypter_panics_on_provider_configs (cfg : ServerConfig)
    (path : String) (fsys : FileSys) (entries : List FSEntry)
    (h : cfg.KEKProviderConfigs ≠ []) :
    NewEncrypter cfg path fsys entries = .crash .nilMapWrite := by
  obtain ⟨p, rest, hlist⟩ : ∃ p rest, cfg.KEKProviderConfigs = p :: rest := by
    cases hl : cfg.KEKProviderConfigs with
    | nil => exact absurd hl h
    | cons p rest => exact ⟨p, rest, rfl⟩
  simp [NewEncrypter, hlist, newEncrypterLoop]

/-- Closed instance of `newEncrypter_panics_on_provider_configs`. -/
theorem newEncrypter_panics_on_provider_configs_witness :
    NewEncrypter ⟨"oidc", [⟨"transit", "t1", []⟩]⟩ "store" [] [] = .crash .nilMapWrite :=
  newEncrypter_panics_on_provider_configs _ "store" [] [] (by decide)

/-- Decrypt inverts a seal under the keyset found in the keyring. -/
theorem decrypt_seal_of_lookup (e : Encrypter) (k : String) (ks : Keyset)
    (hlook : mapGet e.keyring k = some ks) (rand2 : Nat → Nat) (c : Bytes) :
    Decrypt e (cryptoBytes rand2 gcmNonceSize
        ++ gcmSeal ks.cipherKey (cryptoBytes rand2 gcmNonceSize) c (strBytes k)) k
      = .ok c := by
  have hnl : (cryptoBytes rand2 gcmNonceSize).length = gcmNonceSize :=
    cryptoBytes_length rand2 gcmNonceSize
  have hlen : (cryptoBytes rand2 gcmNonceSize
      ++ gcmSeal ks.cipherKey (cryptoBytes rand2 gcmNonceSize) c (strBytes k)).length
      = gcmNonceSize + (c.length + gcmTagSize) := by
    simp only [List.length_append, hnl, gcmSeal_length]
  simp only [Decrypt, keysetByIDLocked, hlook, hlen]
  rw [if_neg (by omega)]
  rw [take_append_of_length hnl, drop_append_of_length hnl]
  simp [gcmOpen_gcmSeal]

/-- The keyset `addCipher` builds for a root key without RSA material. -/
def baseKeyset (rk : RootKey) : Keyset :=
  { rootKey := rk, cipherKey := rk.Key,
    eddsaPrivateKey := ed25519NewKeyFromSeed rk.Key,
    rsaPrivateKey := none, rsaPKCS1PublicKey := [] }

/-- C9: when AddKey's keyring install succeeds but the keystore save
fails, AddKey returns the save error and the key stays installed: GetKey
returns its material and Decrypt under its ID still works. The on-disk
state is unchanged (the write failed before any file was produced). -/
theorem addKey_no_rollback (e : Encrypter) (fsys : FileSys) (rand : Nat → Nat)
    (diskFail : String → Bool) (rk : RootKey) (m : RootKeyMeta) (p : KEKProvider)
    (hm : rk.Meta = some m) (halg : m.Algorithm = EncryptionAlgorithmAES256GCM)
    (hkey : rk.Key.length = 32) (hrsa : rk.RSAKey = [])
    (hprov : m.KEKProviders = [p]) (hp : p.Provider = "aead")
    (hfail : diskFail (m.KeyID ++ providerExtension p) = true) :
    ∃ ks, AddKey e rand diskFail fsys (some rk)
        = (({ e with keyring := mapPut e.keyring m.KeyID ks }, fsys),
           .err (.writeFailed (m.KeyID ++ providerExtension p)))
      ∧ ks.rootKey = rk
      ∧ GetKey { e with keyring := mapPut e.keyring m.KeyID ks } m.KeyID
          = .ok (rk.Key, rk.RSAKey)
      ∧ ∀ rand2 c, Decrypt { e with keyring := mapPut e.keyring m.KeyID ks }
          (cryptoBytes rand2 gcmNonceSize
            ++ gcmSeal ks.cipherKey (cryptoBytes rand2 gcmNonceSize) c
                (strBytes m.KeyID))
          m.KeyID = .ok c := by
  have hmeta : metaOf rk = m := by simp [metaOf, hm]
  refine ⟨baseKeyset rk, ?_, rfl, ?_, ?_⟩
  · have hadd : addCipher e (some rk)
        = ({ e with keyring := mapPut e.keyring m.KeyID (baseKeyset rk) }, .ok ()) := by
      simp [addCipher, hm, halg, hkey, hrsa, baseKeyset]
    have hdek : ∀ e' : Encrypter, encryptDEK e' rand rk p
        = .ok { Meta := rk.Meta,
                EncryptedDataEncryptionKey :=
                  wrapperEncrypt (.aeadWrapper m.KeyID (cryptoBytes rand 32)) rk.Key,
                EncryptedRSAKey := [], KeyEncryptionKey := cryptoBytes rand 32,
                Provider := p.Provider, ProviderName := p.Name } := by
      intro e'
      simp [encryptDEK, hp, hmeta, newKMSWrapper, cryptoBytes_length, hrsa]
    have hsave : ∀ e' : Encrypter, saveKeyToStore e' rand diskFail fsys rk
        = (fsys, .err (.writeFailed (m.KeyID ++ providerExtension p))) := by
      intro e'
      simp only [saveKeyToStore, hmeta, hprov, saveKeyLoop, hdek e']
      simp [hfail]
    simp only [AddKey, hadd, hsave]
  · simp [GetKey, keysetByIDLocked, mapGet_mapPut, baseKeyset]
  · intro rand2 c
    exact decrypt_seal_of_lookup _ m.KeyID _ (mapGet_mapPut _ _ _) rand2 c

/-- Empty encrypter state used by witnesses. -/
def eEmpty : Encrypter :=
  { providerConfigs := none, keystorePath := "", issuer := "", keyring := [] }

/-- The aead provider descriptor of the witness metadata. -/
def provAead : KEKProvider := { Provider := "aead", Name := "" }

/-- Closed instance of `addKey_no_rollback`: the disk rejects every
write, the keyring keeps the key. -/
theorem addKey_no_rollback_witness :
    ∃ ks, AddKey eEmpty (fun i => i) (fun _ => true) [] (some rkW1)
        = (({ eEmpty with keyring := mapPut eEmpty.keyring metaW1.KeyID ks }, []),
           .err (.writeFailed (metaW1.KeyID ++ providerExtension provAead)))
      ∧ ks.rootKey = rkW1
      ∧ GetKey { eEmpty with keyring := mapPut eEmpty.keyring metaW1.KeyID ks }
          metaW1.KeyID = .ok (rkW1.Key, rkW1.RSAKey)
      ∧ ∀ rand2 c, Decrypt { eEmpty with keyring := mapPut eEmpty.keyring metaW1.KeyID ks }
          (cryptoBytes rand2 gcmNonceSize
            ++ gcmSeal ks.cipherKey (cryptoBytes rand2 gcmNonceSize) c
                (strBytes metaW1.KeyID))
          metaW1.KeyID = .ok c :=
  addKey_no_rollback eEmpty [] (fun i => i) (fun _ => true) rkW1 metaW1 provAead
    rfl rfl (by decide) rfl rfl rfl rfl

/-- A string does end with its own suffix. -/
theorem hasSuffix_append (a s : String) : hasSuffix (a ++ s) s = true := by
  simp only [hasSuffix, String.data_append, List.length_append,
    Nat.add_sub_cancel, Bool.and_eq_true, decide_eq_true_eq]
  exact ⟨by omega, drop_append_of_length rfl⟩

/-- Trimming the suffix it ends with recovers the stem. -/
theorem trimSuffix_append (a s : String) : trimSuffix (a ++ s) s = a := by
  simp only [trimSuffix, hasSuffix_append, if_pos]
  simp only [String.data_append, List.length_append, Nat.add_sub_cancel]
  rw [take_append_of_length rfl]

/-- The default branch of `newKMSWrapper`: any provider string that is
not one of the four external types builds the built-in AEAD wrapper. -/
theorem newKMSWrapper_default (e : Encrypter) (provider name keyID : String)
    (kek : Bytes) (hk : kek.length = 32)
    (hnp : ¬ (provider = "awskms" ∨ provider = "azurekeyvault"
      ∨ provider = "gcpckms" ∨ provider = "transit")) :
    newKMSWrapper e provider name keyID kek = .ok (.aeadWrapper keyID kek) := by
  unfold newKMSWrapper
  rw [if_neg hnp]
  rw [if_pos (Or.inr (Or.inr hk))]

/-- An AEAD unwrap only needs the KEK; the key ID recorded on the wrapper
is blob metadata. -/
theorem wrapperDecrypt_aead_any_kid (kid kid' : String) (kek pt : Bytes) :
    wrapperDecrypt (.aeadWrapper kid kek) (wrapperEncrypt (.aeadWrapper kid' kek) pt)
      = .ok pt := by
  simp [wrapperEncrypt, wrapperDecrypt]

/-- The record `encryptDEK` produces for the built-in AEAD provider. -/
def aeadWrapRecord (rk : RootKey) (kek : Bytes) (p : KEKProvider) :
    KeyEncryptionKeyWrapper :=
  { Meta := rk.Meta,
    EncryptedDataEncryptionKey :=
      wrapperEncrypt (.aeadWrapper (metaOf rk).KeyID kek) rk.Key,
    EncryptedRSAKey :=
      if rk.RSAKey.length > 0 then
        wrapperEncrypt (.aeadWrapper (metaOf rk).KeyID kek) rk.RSAKey
      else [],
    KeyEncryptionKey := kek, Provider := p.Provider, ProviderName := p.Name }

theorem encryptDEK_aead (e : Encrypter) (rand : Nat → Nat) (rk : RootKey)
    (p : KEKProvider) (hp : p.Provider = "aead") :
    encryptDEK e rand rk p = .ok (aeadWrapRecord rk (cryptoBytes rand 32) p) := by
  by_cases hr : rk.RSAKey.length > 0 <;>
    simp [encryptDEK, hp, newKMSWrapper, cryptoBytes_length, aeadWrapRecord, hr]

/-- Saving a key whose only provider descriptor is the built-in AEAD
provider writes the single file `KeyID.nks.json`. -/
theorem saveKeyToStore_aead (e : Encrypter) (rand : Nat → Nat) (fsys : FileSys)
    (rk : RootKey) (m : RootKeyMeta) (p : KEKProvider)
    (hm : rk.Meta = some m) (hprov : m.KEKProviders = [p]) (hp : p.Provider = "aead") :
    saveKeyToStore e rand (fun _ => false) fsys rk
      = (mapPut fsys (m.KeyID ++ nomadKeystoreExtension)
          (aeadWrapRecord rk (cryptoBytes rand 32) p), .ok ()) := by
  have hmeta : metaOf rk = m := by simp [metaOf, hm]
  have hext : providerExtension p = nomadKeystoreExtension := by
    simp [providerExtension, hp]
  simp [saveKeyToStore, hmeta, hprov, saveKeyLoop, encryptDEK_aead e rand rk p hp,
    hext]

/-- Loading a file whose record was wrapped by the built-in AEAD provider
restores the saved metadata, DEK bytes and RSA bytes. -/
theorem loadKeyFromStore_aead (e : Encrypter) (fs : FileSys) (path : String)
    (rk : RootKey) (m : RootKeyMeta) (kek : Bytes) (p : KEKProvider)
    (hm : rk.Meta = some m)
    (hg : mapGet fs path = some (aeadWrapRecord rk kek p))
    (hval : metaValidate rk.Meta = .ok ())
    (hnp : ¬ (p.Provider = "awskms" ∨ p.Provider = "azurekeyvault"
      ∨ p.Provider = "gcpckms" ∨ p.Provider = "transit"))
    (hkekl : kek.length = 32) :
    loadKeyFromStore e fs path = .ok rk := by
  have hmeta : metaOf rk = m := by simp [metaOf, hm]
  simp only [loadKeyFromStore, hg]
  simp only [aeadWrapRecord, hm, hmeta]
  rw [hm] at hval
  simp only [hval]
  rw [newKMSWrapper_default e p.Provider p.Name _ kek hkekl hnp]
  simp only [wrapperDecrypt_aead_any_kid]
  by_cases hr : rk.RSAKey.length > 0
  · rw [if_pos hr]
    have hlen : (wrapperEncrypt (.aeadWrapper m.KeyID kek) rk.RSAKey).length > 0 := by
      simp [wrapperEncrypt]
    rw [if_pos hlen, wrapperDecrypt_aead_any_kid]
    rw [← hm]
  · rw [if_neg hr]
    rw [if_neg (by simp)]
    have hz : rk.RSAKey = [] := by
      cases hc : rk.RSAKey with
      | nil => rfl
      | cons a tl => rw [hc] at hr; simp at hr
    rw [← hm, ← hz]

/-- The keyset `addCipher` builds when RSA material with the DER SEQUENCE
tag is present. -/
def rsaKeyset (rk : RootKey) : Keyset :=
  { baseKeyset rk with
    rsaPrivateKey := some (chunkEnc rk.RSAKey),
    rsaPKCS1PublicKey := marshalPKCS1PublicKey (chunkEnc rk.RSAKey) }

/-- C6 amended: for a root key whose provider descriptor is the built-in
AEAD provider, saving to an empty keystore writes the single file
`KeyID.nks.json` and loading that file installs a keyset whose root key
is the saved one (same metadata, DEK bytes and RSA bytes). For external
KMS providers the round trip does not hold: their files carry a provider
suffix and the load walk skips them (see the counterexample). -/
theorem keystore_roundtrip_aead (e : Encrypter) (rand : Nat → Nat)
    (rk : RootKey) (m : RootKeyMeta) (p : KEKProvider)
    (hm : rk.Meta = some m)
    (hval : metaValidate rk.Meta = .ok ())
    (halg : m.Algorithm = EncryptionAlgorithmAES256GCM)
    (hkey : rk.Key.length = 32)
    (hrsa : rk.RSAKey = [] ∨ rk.RSAKey.head? = some 48)
    (hprov : m.KEKProviders = [p]) (hp : p.Provider = "aead") :
    ∃ w ks,
      saveKeyToStore e rand (fun _ => false) [] rk
        = ([(m.KeyID ++ nomadKeystoreExtension, w)], .ok ())
      ∧ loadKeystore e [(m.KeyID ++ nomadKeystoreExtension, w)]
          [.fileEntry (m.KeyID ++ nomadKeystoreExtension)]
          = ({ e with keyring := mapPut e.keyring m.KeyID ks }, .ok ())
      ∧ ks.rootKey = rk := by
  have hmeta : metaOf rk = m := by simp [metaOf, hm]
  have huuid : isUUID m.KeyID = true := by
    cases hu : isUUID m.KeyID with
    | true => rfl
    | false =>
      rw [hm] at hval
      simp only [metaValidate, hu] at hval
      cases hval
  have hsuffix : hasSuffix (m.KeyID ++ nomadKeystoreExtension) nomadKeystoreExtension
      = true := hasSuffix_append _ _
  have htrim : trimSuffix (m.KeyID ++ nomadKeystoreExtension) nomadKeystoreExtension
      = m.KeyID := trimSuffix_append _ _
  have hsave := saveKeyToStore_aead e rand [] rk m p hm hprov hp
  have hg : mapGet [(m.KeyID ++ nomadKeystoreExtension,
      aeadWrapRecord rk (cryptoBytes rand 32) p)] (m.KeyID ++ nomadKeystoreExtension)
      = some (aeadWrapRecord rk (cryptoBytes rand 32) p) := by
    simp [mapGet]
  have hload := loadKeyFromStore_aead e
    [(m.KeyID ++ nomadKeystoreExtension, aeadWrapRecord rk (cryptoBytes rand 32) p)]
    (m.KeyID ++ nomadKeystoreExtension) rk m (cryptoBytes rand 32) p hm hg hval
    (by rw [hp]; decide) (cryptoBytes_length rand 32)
  rcases hrsa with hrsa0 | hrsa48
  · refine ⟨aeadWrapRecord rk (cryptoBytes rand 32) p, baseKeyset rk, ?_, ?_, rfl⟩
    · rw [hsave]
      simp [mapPut]
    · have hadd : addCipher e (some rk)
          = ({ e with keyring := mapPut e.keyring m.KeyID (baseKeyset rk) }, .ok ()) := by
        simp [addCipher, hm, halg, hkey, hrsa0, baseKeyset]
      simp only [loadKeystore, loadKeystoreLoop, hsuffix, Bool.not_true,
        Bool.false_eq_true, if_false, htrim, huuid, hload, hmeta, ne_eq,
        not_true_eq_false, hadd]
  · obtain ⟨t, ht⟩ : ∃ t, rk.RSAKey = 48 :: t := by
      cases hc : rk.RSAKey with
      | nil => rw [hc] at hrsa48; cases hrsa48
      | cons a tl =>
        rw [hc] at hrsa48
        simp only [List.head?] at hrsa48
        exact ⟨tl, by injection hrsa48 with hh; rw [hh]⟩
    have hrsalen : rk.RSAKey.length > 0 := by rw [ht]; simp
    have hparse : parsePKCS1PrivateKey rk.RSAKey = some (chunkEnc rk.RSAKey) := by
      simp [parsePKCS1PrivateKey, ht]
    refine ⟨aeadWrapRecord rk (cryptoBytes rand 32) p, rsaKeyset rk, ?_, ?_, rfl⟩
    · rw [hsave]
      simp [mapPut]
    · have hadd : addCipher e (some rk)
          = ({ e with keyring := mapPut e.keyring m.KeyID (rsaKeyset rk) }, .ok ()) := by
        simp [addCipher, hm, halg, hkey, hrsalen, hparse, baseKeyset, rsaKeyset]
      simp only [loadKeystore, loadKeystoreLoop, hsuffix, Bool.not_true,
        Bool.false_eq_true, if_false, htrim, huuid, hload, hmeta, ne_eq,
        not_true_eq_false, hadd]

/-- Closed instance of `keystore_roundtrip_aead` on the concrete root key
under `uuid1`. -/
theorem keystore_roundtrip_aead_witness :
    ∃ w ks,
      saveKeyToStore eEmpty (fun i => i) (fun _ => false) [] rkW1
        = ([(metaW1.KeyID ++ nomadKeystoreExtension, w)], .ok ())
      ∧ loadKeystore eEmpty [(metaW1.KeyID ++ nomadKeystoreExtension, w)]
          [.fileEntry (metaW1.KeyID ++ nomadKeystoreExtension)]
          = ({ eEmpty with keyring := mapPut eEmpty.keyring metaW1.KeyID ks }, .ok ())
      ∧ ks.rootKey = rkW1 :=
  keystore_roundtrip_aead eEmpty (fun i => i) rkW1 metaW1 provAead rfl rfl
    rfl (by decide) (Or.inl rfl) rfl rfl

/-- Root key metadata whose only wrapping provider is an external KMS. -/
def metaExt : RootKeyMeta :=
  { KeyID := uuid1, Algorithm := EncryptionAlgorithmAES256GCM, CreateTime := 1,
    State := "active", KEKProviders := [{ Provider := "awskms", Name := "" }],
    ModifyIndex := 1 }

/-- Root key wrapped only by the external provider. -/
def rkExt : RootKey := { Meta := some metaExt, Key := List.replicate 32 7, RSAKey := [] }

/-- The keystore directory produced by saving `rkExt`. -/
def extSavedFS : FileSys := (saveKeyToStore eEmpty (fun i => i) (fun _ => false) [] rkExt).1

/-- Loading that directory back. -/
def extLoaded : Encrypter × Res Unit :=
  loadKeystore eEmpty extSavedFS (extSavedFS.map (fun pr => FSEntry.fileEntry pr.1))

/-- C6 counterexample: saving a root key whose provider descriptor is the
external `awskms` provider succeeds and writes the suffixed file
`<KeyID>.awskms.nks.json`, but loading the keystore back silently skips
that file (its name prefix `<KeyID>.awskms` is not a bare UUID), so the
key is not restored: the claimed round trip fails for external KMS
providers. -/
theorem keystore_roundtrip_external_counterexample :
    (saveKeyToStore eEmpty (fun i => i) (fun _ => false) [] rkExt).2 = .ok ()
      ∧ extSavedFS.length = 1
      ∧ extLoaded.2 = .ok ()
      ∧ extLoaded.1.keyring = []
      ∧ GetKey extLoaded.1 uuid1 = .error (.noSuchKey uuid1) :=
  ⟨rfl, rfl, rfl, rfl, rfl⟩

/-- The provider descriptor of a hand-edited key file naming an unknown
provider type. -/
def provNonesuch : KEKProvider := { Provider := "nonesuch", Name := "" }

/-- A key file record naming the unknown provider "nonesuch" but carrying
a valid 32-byte KEK and a DEK wrapped under it (as a hand-edited aead
file would). -/
def nonesuchW : KeyEncryptionKeyWrapper :=
  aeadWrapRecord rkW1 (List.replicate 32 5) provNonesuch

/-- C7 counterexample: loading the file whose wrapper record names the
provider "nonesuch" does not fail with an unknown-provider error; the
default branch of `newKMSWrapper` treats it as the built-in AEAD provider
and the load succeeds outright (the whole keystore walk succeeds too). -/
theorem load_unknown_provider_counterexample :
    loadKeyFromStore eEmpty [(uuid1 ++ nomadKeystoreExtension, nonesuchW)]
        (uuid1 ++ nomadKeystoreExtension) = .ok rkW1
      ∧ (loadKeystore eEmpty [(uuid1 ++ nomadKeystoreExtension, nonesuchW)]
          [.fileEntry (uuid1 ++ nomadKeystoreExtension)]).2 = .ok () :=
  ⟨rfl, rfl⟩

/-- C7 amended: a keystore file whose record names a provider type that
is neither the built-in AEAD type nor one of the known external types is
handled by the default (built-in AEAD) branch of `newKMSWrapper`: when
the record carries a KEK of valid AES length and its blobs were wrapped
under that KEK, loading succeeds and restores the key; no
unknown-provider error exists in the load path. -/
theorem load_unknown_provider_aead_fallback (e : Encrypter) (fs : FileSys)
    (path : String) (rk : RootKey) (m : RootKeyMeta) (kek : Bytes) (p : KEKProvider)
    (hm : rk.Meta = some m)
    (hg : mapGet fs path = some (aeadWrapRecord rk kek p))
    (hval : metaValidate rk.Meta = .ok ())
    (hnaead : p.Provider ≠ "aead")
    (hnp : ¬ (p.Provider = "awskms" ∨ p.Provider = "azurekeyvault"
      ∨ p.Provider = "gcpckms" ∨ p.Provider = "transit"))
    (hkekl : kek.length = 32) :
    loadKeyFromStore e fs path = .ok rk :=
  loadKeyFromStore_aead e fs path rk m kek p hm hg hval hnp hkekl

/-- Closed instance of `load_unknown_provider_aead_fallback` on the
"nonesuch" record. -/
theorem load_unknown_provider_aead_fallback_witness :
    loadKeyFromStore eEmpty [(uuid1 ++ nomadKeystoreExtension, nonesuchW)]
      (uuid1 ++ nomadKeystoreExtension) = .ok rkW1 :=
  load_unknown_provider_aead_fallback eEmpty
    [(uuid1 ++ nomadKeystoreExtension, nonesuchW)] (uuid1 ++ nomadKeystoreExtension)
    rkW1 metaW1 (List.replicate 32 5) provNonesuch rfl rfl rfl (by decide)
    (by decide) (by decide)

/-- A file of invalid content (nil metadata) under a non-UUID name. -/
def badW : KeyEncryptionKeyWrapper :=
  { Meta := none, EncryptedDataEncryptionKey := [], EncryptedRSAKey := [],
    KeyEncryptionKey := [], Provider := "aead", ProviderName := "" }

/-- C8 counterexample: a keystore entry with the right extension but a
filename prefix that is not a well-formed UUID is silently skipped, not
rejected: the walk succeeds although reading the file would fail. -/
theorem load_non_uuid_skipped_counterexample :
    loadKeystore eEmpty [("notauuid.nks.json", badW)] [.fileEntry "notauuid.nks.json"]
        = (eEmpty, .ok ())
      ∧ loadKeyFromStore eEmpty [("notauuid.nks.json", badW)] "notauuid.nks.json"
          = .error .invalidMeta :=
  ⟨rfl, rfl⟩

/-- C8 amended: during the keystore walk, subdirectories are skipped,
files without the keystore extension are skipped, entries whose filename
prefix is not a well-formed UUID are skipped without error, and an entry
whose embedded `Meta.KeyID` disagrees with its filename prefix fails the
load. -/
theorem loadKeystore_entry_handling :
    (∀ (fsys : FileSys) (e : Encrypter) (d : String) (rest : List FSEntry),
      loadKeystoreLoop fsys e (.dirEntry d :: rest) = loadKeystoreLoop fsys e rest)
    ∧ (∀ (fsys : FileSys) (e : Encrypter) (name : String) (rest : List FSEntry),
      hasSuffix name nomadKeystoreExtension = false →
      loadKeystoreLoop fsys e (.fileEntry name :: rest) = loadKeystoreLoop fsys e rest)
    ∧ (∀ (fsys : FileSys) (e : Encrypter) (name : String) (rest : List FSEntry),
      isUUID (trimSuffix name nomadKeystoreExtension) = false →
      loadKeystoreLoop fsys e (.fileEntry name :: rest) = loadKeystoreLoop fsys e rest)
    ∧ (∀ (fsys : FileSys) (e : Encrypter) (name : String) (rest : List FSEntry)
        (key : RootKey),
      hasSuffix name nomadKeystoreExtension = true →
      isUUID (trimSuffix name nomadKeystoreExtension) = true →
      loadKeyFromStore e fsys name = .ok key →
      (metaOf key).KeyID ≠ trimSuffix name nomadKeystoreExtension →
      loadKeystoreLoop fsys e (.fileEntry name :: rest)
        = (e, .err (.keyIDMismatch (metaOf key).KeyID name))) := by
  refine ⟨fun _ _ _ _ => rfl, ?_, ?_, ?_⟩
  · intro fsys e name rest h
    simp [loadKeystoreLoop, h]
  · intro fsys e name rest h
    cases hs : hasSuffix name nomadKeystoreExtension with
    | false => simp [loadKeystoreLoop, hs]
    | true => simp [loadKeystoreLoop, hs, h]
  · intro fsys e name rest key hsuf huuid hload hmm
    simp [loadKeystoreLoop, hsuf, huuid, hload, hmm]

/-- A valid record for the key under `uuid2` stored under the file name
of `uuid1`: the embedded key ID disagrees with the filename prefix. -/
def mismName : String := uuid1 ++ nomadKeystoreExtension

/-- The keystore directory holding the mismatched record. -/
def mismFS : FileSys := [(mismName, aeadWrapRecord rkW2 (List.replicate 32 5) provAead)]

/-- Closed instance of `loadKeystore_entry_handling`: a subdirectory, a
non-extension file and a non-UUID prefix are each skipped, and the
mismatched record fails the load with the key ID mismatch error. -/
theorem loadKeystore_entry_handling_witness :
    loadKeystoreLoop [] eEmpty [.dirEntry "subdir"] = loadKeystoreLoop [] eEmpty []
      ∧ loadKeystoreLoop [] eEmpty [.fileEntry "README.md"]
          = loadKeystoreLoop [] eEmpty []
      ∧ loadKeystoreLoop [] eEmpty [.fileEntry "notauuid.nks.json"]
          = loadKeystoreLoop [] eEmpty []
      ∧ loadKeystoreLoop mismFS eEmpty [.fileEntry mismName]
          = (eEmpty, .err (.keyIDMismatch (metaOf rkW2).KeyID mismName)) :=
  ⟨loadKeystore_entry_handling.1 [] eEmpty "subdir" [],
   loadKeystore_entry_handling.2.1 [] eEmpty "README.md" [] (by decide),
   loadKeystore_entry_handling.2.2.1 [] eEmpty "notauuid.nks.json" [] (by decide),
   loadKeystore_entry_handling.2.2.2 mismFS eEmpty mismName [] rkW2 (by decide)
     (by decide) rfl (by decide)⟩

end NomadKeyring
